import Mathlib

/-!
Shallow embedding of the photo-uploader's transform model, constraint
engine, upload queue and batch pipeline, translated from the TypeScript
sources under src/app/upload/photo/.  All pixel arithmetic is modelled
over ℚ (the code uses IEEE doubles; every claim checked here is either
exact rational arithmetic or restricted to rotations that are multiples
of 90 degrees, where Math.cos/Math.sin are exact).
-/

namespace PhotoUploader

/- ==================== Data model (types/photo.types.ts) ==================== -/

/-- Pixel position, `{ x, y }` in the source. -/
structure Position where
  x : ℚ
  y : ℚ
deriving DecidableEq

/-- `PhotoTransform` from types/photo.types.ts: position, scale, rotation
plus the editor container size the transform was captured at. -/
structure PhotoTransform where
  position : Position
  scale : ℚ
  rotation : ℤ
  containerWidth : ℚ
  containerHeight : ℚ
deriving DecidableEq

/-- The fields of `Photo` (types/photo.types.ts) the verified operations
touch.  Ids are modelled as naturals. -/
structure Photo where
  id : ℕ
  quantity : ℤ
  width : ℚ
  height : ℚ
  transform : Option PhotoTransform
  autoRotated : Bool
deriving DecidableEq

/-- `StyleType` from types/photo.types.ts. -/
inductive StyleType
  | full_bleed
  | white_margin
  | instax
deriving DecidableEq

/-- `WHITE_MARGIN_PERCENT = 5` from types/photo.types.ts. -/
def WHITE_MARGIN_PERCENT : ℚ := 5

/-- Stage (canvas) size, `stageSize: { width, height }` in the source. -/
structure StageSize where
  width : ℚ
  height : ℚ
deriving DecidableEq

/-- The two dimensions of an `HTMLImageElement` that the constraint code
reads (`image.width`, `image.height`). -/
structure ImageSize where
  width : ℚ
  height : ℚ
deriving DecidableEq

/- ==================== Transform model (utils/photoTransform.ts) =========== -/

/-- Result shape of `scaleTransform`: `{ position, scale, rotation }`. -/
structure ScaledTransform where
  position : Position
  scale : ℚ
  rotation : ℤ
deriving DecidableEq

/-- `scaleTransform(photo, currentContainerWidth)` from
utils/photoTransform.ts lines 103–121.  Returns `null` when the photo has
no transform or a falsy (zero) stored container dimension; otherwise
multiplies position and scale by
`currentContainerWidth / transform.containerWidth`, keeping rotation. -/
def scaleTransform (photo : Photo) (currentContainerWidth : ℚ) :
    Option ScaledTransform :=
  match photo.transform with
  | none => none
  | some t =>
    if t.containerWidth = 0 ∨ t.containerHeight = 0 then none
    else
      let scaleFactor := currentContainerWidth / t.containerWidth
      some
        { position :=
            { x := t.position.x * scaleFactor
              y := t.position.y * scaleFactor }
          scale := t.scale * scaleFactor
          rotation := t.rotation }

/- ==================== Constraint engine (PhotoCanvas.tsx) ================= -/

/-- `Math.abs(Math.cos(rotation * π / 180))` for rotations that are
multiples of 90 degrees: 1 on multiples of 180, else 0.  (The editor only
ever produces multiples of 90; claims about other angles are out of this
embedding's reach.) -/
@[reducible]
def cosAbsDeg (rotation : ℤ) : ℚ :=
  if rotation % 180 = 0 then 1 else 0

/-- `Math.abs(Math.sin(rotation * π / 180))` for rotations that are
multiples of 90 degrees: 0 on multiples of 180, else 1. -/
@[reducible]
def sinAbsDeg (rotation : ℤ) : ℚ :=
  if rotation % 180 = 0 then 0 else 1

/-- `styleType === 'white_margin' ? WHITE_MARGIN_PERCENT / 100 : 0`,
the margin fraction shared by `constrainPosition`, `getMinScale` and
`calculateInitialAttrs`. -/
@[reducible]
def marginOf (styleType : StyleType) : ℚ :=
  if styleType = StyleType.white_margin then WHITE_MARGIN_PERCENT / 100 else 0

/-- `constrainPosition(x, y, scale, rotation, image, stageSize, styleType)`
from PhotoCanvas.tsx lines 113–144 (the copy in PhotoEditor.tsx lines
844–869 is identical): clamps the requested image-centre position to
`centre ± max(0, (scaledBox - effectiveArea)/2)` on each axis. -/
def constrainPosition (x y scale : ℚ) (rotation : ℤ) (image : ImageSize)
    (stageSize : StageSize) (styleType : StyleType) : Position :=
  let margin := marginOf styleType
  let effectiveWidth := stageSize.width * (1 - margin * 2)
  let effectiveHeight := stageSize.height * (1 - margin * 2)
  let marginX := stageSize.width * margin
  let marginY := stageSize.height * margin
  let c := cosAbsDeg rotation
  let s := sinAbsDeg rotation
  let scaledWidth := (image.width * c + image.height * s) * scale
  let scaledHeight := (image.width * s + image.height * c) * scale
  let centerX := marginX + effectiveWidth / 2
  let centerY := marginY + effectiveHeight / 2
  let maxOffsetX := max 0 ((scaledWidth - effectiveWidth) / 2)
  let maxOffsetY := max 0 ((scaledHeight - effectiveHeight) / 2)
  { x := max (centerX - maxOffsetX) (min (centerX + maxOffsetX) x)
    y := max (centerY - maxOffsetY) (min (centerY + maxOffsetY) y) }

/-- `getMinScale(image, stageSize, styleType, rotation)` from
PhotoCanvas.tsx lines 149–170 (identical in PhotoEditor.tsx lines
823–841): contain style returns the fit scale times 0.5, cover style
returns the exact cover scale. -/
def getMinScale (image : ImageSize) (stageSize : StageSize)
    (styleType : StyleType) (rotation : ℤ) : ℚ :=
  let margin := marginOf styleType
  let effectiveWidth := stageSize.width * (1 - margin * 2)
  let effectiveHeight := stageSize.height * (1 - margin * 2)
  let c := cosAbsDeg rotation
  let s := sinAbsDeg rotation
  let rotatedWidth := image.width * c + image.height * s
  let rotatedHeight := image.width * s + image.height * c
  if styleType = StyleType.white_margin then
    min (effectiveWidth / rotatedWidth) (effectiveHeight / rotatedHeight) * (1 / 2)
  else
    max (effectiveWidth / rotatedWidth) (effectiveHeight / rotatedHeight)

/- Geometry of the drawable (margin-shrunk) area and of the rotated,
scaled image bounding box, used to state the contain/cover invariants.
The image is drawn centred at the constrained position with offset
(width/2, height/2), so its axis-aligned box is position ± half the
rotated scaled extent. -/

/-- Left edge of the drawable area. -/
@[reducible]
def drawableLeft (stageSize : StageSize) (styleType : StyleType) : ℚ :=
  stageSize.width * marginOf styleType

/-- Right edge of the drawable area. -/
@[reducible]
def drawableRight (stageSize : StageSize) (styleType : StyleType) : ℚ :=
  stageSize.width * (1 - marginOf styleType)

/-- Top edge of the drawable area. -/
@[reducible]
def drawableTop (stageSize : StageSize) (styleType : StyleType) : ℚ :=
  stageSize.height * marginOf styleType

/-- Bottom edge of the drawable area. -/
@[reducible]
def drawableBottom (stageSize : StageSize) (styleType : StyleType) : ℚ :=
  stageSize.height * (1 - marginOf styleType)

/-- Half the width of the rotated, scaled image bounding box. -/
@[reducible]
def scaledHalfWidth (scale : ℚ) (rotation : ℤ) (image : ImageSize) : ℚ :=
  (image.width * cosAbsDeg rotation + image.height * sinAbsDeg rotation) * scale / 2

/-- Half the height of the rotated, scaled image bounding box. -/
@[reducible]
def scaledHalfHeight (scale : ℚ) (rotation : ℤ) (image : ImageSize) : ℚ :=
  (image.width * sinAbsDeg rotation + image.height * cosAbsDeg rotation) * scale / 2

/-- The rotated, scaled image box centred at `pos` lies fully inside the
drawable area (the contain/white-margin invariant). -/
@[reducible]
def boxWithinDrawable (pos : Position) (scale : ℚ) (rotation : ℤ)
    (image : ImageSize) (stageSize : StageSize) (styleType : StyleType) : Prop :=
  drawableLeft stageSize styleType ≤ pos.x - scaledHalfWidth scale rotation image ∧
  pos.x + scaledHalfWidth scale rotation image ≤ drawableRight stageSize styleType ∧
  drawableTop stageSize styleType ≤ pos.y - scaledHalfHeight scale rotation image ∧
  pos.y + scaledHalfHeight scale rotation image ≤ drawableBottom stageSize styleType

/-- The rotated, scaled image box centred at `pos` fully covers the
drawable area (the cover/full-bleed invariant). -/
@[reducible]
def boxCoversDrawable (pos : Position) (scale : ℚ) (rotation : ℤ)
    (image : ImageSize) (stageSize : StageSize) (styleType : StyleType) : Prop :=
  pos.x - scaledHalfWidth scale rotation image ≤ drawableLeft stageSize styleType ∧
  drawableRight stageSize styleType ≤ pos.x + scaledHalfWidth scale rotation image ∧
  pos.y - scaledHalfHeight scale rotation image ≤ drawableTop stageSize styleType ∧
  drawableBottom stageSize styleType ≤ pos.y + scaledHalfHeight scale rotation image

/- ==================== Upload queue (page.tsx lines 61–168) =============== -/

/-- `MAX_CONCURRENT_UPLOADS = 3` from page.tsx line 65. -/
def MAX_CONCURRENT_UPLOADS : ℕ := 3

/-- The mutable pipeline state of page.tsx: `uploadQueueRef.current`
(waiting photo ids, FIFO) and the multiset of in-flight uploads
(`uploadingCountRef.current` is its length). -/
structure QueueState where
  queue : List ℕ
  inflight : List ℕ
deriving DecidableEq

/-- The loop body of `tryStartNextUpload` (page.tsx lines 112–150),
written as structural recursion on the waiting queue: while the
concurrency ceiling is not reached and the queue is non-empty, shift the
head of the queue and start it (move it in flight).  The source realises
the same drain through self-recursion guarded by
`uploadingCountRef.current < MAX_CONCURRENT_UPLOADS && queue.length > 0`. -/
def tryStartFrom (inflight : List ℕ) : List ℕ → QueueState
  | [] => { queue := [], inflight := inflight }
  | item :: rest =>
    if MAX_CONCURRENT_UPLOADS ≤ inflight.length then
      { queue := item :: rest, inflight := inflight }
    else
      tryStartFrom (item :: inflight) rest

/-- `tryStartNextUpload()` from page.tsx lines 112–150. -/
def tryStartNextUpload (s : QueueState) : QueueState :=
  tryStartFrom s.inflight s.queue

/-- `addToUploadQueue(photoId, file)` from page.tsx lines 153–168: a no-op
when the photoId is already in the waiting queue
(`uploadQueueRef.current.some(item => item.id === photoId)`), otherwise
push and immediately try to start. -/
def addToUploadQueue (photoId : ℕ) (s : QueueState) : QueueState :=
  if photoId ∈ s.queue then s
  else tryStartNextUpload { queue := s.queue ++ [photoId], inflight := s.inflight }

/-- Completion of an in-flight upload: the `.finally` callback attached in
`tryStartNextUpload` (page.tsx lines 135–144) decrements the uploading
count and immediately calls `tryStartNextUpload` again.  Completing an id
that is not in flight is not an event the program can produce and is
modelled as a no-op. -/
def completeUpload (photoId : ℕ) (s : QueueState) : QueueState :=
  if photoId ∈ s.inflight then
    tryStartNextUpload { queue := s.queue, inflight := s.inflight.erase photoId }
  else s

/-- Events the upload pipeline reacts to. -/
inductive UploadEvent
  | enqueue (photoId : ℕ)
  | complete (photoId : ℕ)
deriving DecidableEq

/-- One pipeline step. -/
def applyEvent (s : QueueState) : UploadEvent → QueueState
  | UploadEvent.enqueue photoId => addToUploadQueue photoId s
  | UploadEvent.complete photoId => completeUpload photoId s

/-- The pipeline state after a sequence of events, starting from the
empty queue and no uploads in flight (the initial refs of page.tsx). -/
def runEvents (events : List UploadEvent) : QueueState :=
  events.foldl applyEvent { queue := [], inflight := [] }

/- ==================== Quantity change (page.tsx lines 177–187) =========== -/

/-- `handleQuantityChange(id, delta)` from page.tsx lines 177–187: map
over the photo list, floor the changed quantity at 1 with
`Math.max(1, photo.quantity + delta)`. -/
def handleQuantityChange (photos : List Photo) (id : ℕ) (delta : ℤ) :
    List Photo :=
  photos.map fun photo =>
    if photo.id = id then { photo with quantity := max 1 (photo.quantity + delta) }
    else photo

/- ============ Batch processing (utils/photoSubmit.ts) ==================== -/

/-- Whether a fallible step succeeded (did not throw). -/
def isSuccess {ε α : Type} (r : Except ε α) : Bool :=
  match r with
  | Except.ok _ => true
  | Except.error _ => false

/-- The loop of `downloadAllPhotos` (photoSubmit.ts lines 1366–1406),
abstracted over the per-photo processing step
(`processPhotoForDownload`, which can throw on decode or canvas-export
failure).  `i` is the 0-based loop index.  Returns the photos whose
downloads were actually triggered, and `some (i+1)` when the loop threw
`照片 i+1 处理失败` at the failing photo — the `catch` block rethrows, so
the loop exits and no later photo is processed. -/
def downloadAllFrom {ε : Type} (process : ℕ → Except ε Unit) (i : ℕ) :
    List ℕ → List ℕ × Option ℕ
  | [] => ([], none)
  | p :: rest =>
    match process p with
    | Except.ok _ =>
      let r := downloadAllFrom process (i + 1) rest
      (p :: r.1, r.2)
    | Except.error _ => ([], some (i + 1))

/-- `downloadAllPhotos(photos, ...)` from photoSubmit.ts lines 1366–1406. -/
def downloadAllPhotos {ε : Type} (process : ℕ → Except ε Unit)
    (photos : List ℕ) : List ℕ × Option ℕ :=
  downloadAllFrom process 0 photos

/-- The loop of `prepareOrderSubmitData` (photoSubmit.ts lines
1100–1160), abstracted over `composePhotoWithWatermark`: the `catch`
block rethrows (`throw error`), so the first failing photo aborts the
whole batch; on success the composed photo data list is returned. -/
def prepareOrderSubmitData {ε : Type} (process : ℕ → Except ε Unit) :
    List ℕ → Except ε (List ℕ)
  | [] => Except.ok []
  | p :: rest =>
    match process p with
    | Except.ok _ => (prepareOrderSubmitData process rest).map fun l => p :: l
    | Except.error e => Except.error e

/- ==================== Helper lemmas ==================== -/

/-- The clamp `max lo (min hi x)` never exceeds its upper bound. -/
lemma clamp_le (lo hi x : ℚ) (h : lo ≤ hi) : max lo (min hi x) ≤ hi :=
  max_le h (min_le_left _ _)

/-- The clamp `max lo (min hi x)` never undershoots its lower bound. -/
lemma le_clamp (lo hi x : ℚ) : lo ≤ max lo (min hi x) :=
  le_max_left _ _

/-- Clamping to a non-empty interval is idempotent. -/
lemma clamp_idem (lo hi x : ℚ) (h : lo ≤ hi) :
    max lo (min hi (max lo (min hi x))) = max lo (min hi x) := by
  have h1 : lo ≤ max lo (min hi x) := le_clamp lo hi x
  have h2 : max lo (min hi x) ≤ hi := clamp_le lo hi x h
  rw [min_eq_right h2, max_eq_right h1]

/-- `cosAbsDeg`/`sinAbsDeg` always take one of the two quarter-turn value
pairs. -/
lemma cosSin_cases (rotation : ℤ) :
    (cosAbsDeg rotation = 1 ∧ sinAbsDeg rotation = 0) ∨
    (cosAbsDeg rotation = 0 ∧ sinAbsDeg rotation = 1) := by
  by_cases h : rotation % 180 = 0 <;> simp [cosAbsDeg, sinAbsDeg, h]

/-- One axis of `constrainPosition` when the scaled box extent `b` is at
least the effective extent `eW`: the clamped coordinate keeps the box
covering `[mX, mX + eW]`. -/
lemma clamp_covers (x eW mX b : ℚ) (hb : eW ≤ b) :
    max (mX + eW / 2 - max 0 ((b - eW) / 2))
        (min (mX + eW / 2 + max 0 ((b - eW) / 2)) x) - b / 2 ≤ mX ∧
    mX + eW ≤ max (mX + eW / 2 - max 0 ((b - eW) / 2))
        (min (mX + eW / 2 + max 0 ((b - eW) / 2)) x) + b / 2 := by
  have hm : max 0 ((b - eW) / 2) = (b - eW) / 2 := max_eq_right (by linarith)
  rw [hm]
  have h1 : max (mX + eW / 2 - (b - eW) / 2) (min (mX + eW / 2 + (b - eW) / 2) x) ≤
      mX + eW / 2 + (b - eW) / 2 := clamp_le _ _ _ (by linarith)
  have h2 : mX + eW / 2 - (b - eW) / 2 ≤
      max (mX + eW / 2 - (b - eW) / 2) (min (mX + eW / 2 + (b - eW) / 2) x) :=
    le_clamp _ _ _
  constructor <;> linarith

/-- One axis of `constrainPosition` when the scaled box extent `b` is at
most the effective extent `eW`: the clamp pins the coordinate to the
centre of the effective area. -/
lemma clamp_pins_center (x eW mX b : ℚ) (hb : b ≤ eW) :
    max (mX + eW / 2 - max 0 ((b - eW) / 2))
        (min (mX + eW / 2 + max 0 ((b - eW) / 2)) x) = mX + eW / 2 := by
  have hm : max 0 ((b - eW) / 2) = 0 := max_eq_left (by linarith)
  rw [hm, sub_zero, add_zero]
  exact max_eq_left (min_le_left _ _)

/- ==================== Claims ==================== -/

/-- Claim C2: the position clamp is idempotent — for every image size,
stage size, style type, scale and rotation, applying `constrainPosition`
to its own output (with identical other arguments) returns that output
unchanged. -/
theorem constrainPosition_idempotent (x y scale : ℚ) (rotation : ℤ)
    (image : ImageSize) (stageSize : StageSize) (styleType : StyleType) :
    constrainPosition
      (constrainPosition x y scale rotation image stageSize styleType).x
      (constrainPosition x y scale rotation image stageSize styleType).y
      scale rotation image stageSize styleType =
    constrainPosition x y scale rotation image stageSize styleType := by
  simp only [constrainPosition]
  have hx : (0 : ℚ) ≤ max 0
      (((image.width * cosAbsDeg rotation + image.height * sinAbsDeg rotation) * scale -
        stageSize.width * (1 - marginOf styleType * 2)) / 2) := le_max_left _ _
  have hy : (0 : ℚ) ≤ max 0
      (((image.width * sinAbsDeg rotation + image.height * cosAbsDeg rotation) * scale -
        stageSize.height * (1 - marginOf styleType * 2)) / 2) := le_max_left _ _
  congr 1
  · exact clamp_idem _ _ _ (by linarith)
  · exact clamp_idem _ _ _ (by linarith)

/-- Claim C10: for every style, whenever the rotated and scaled bounding
box is no larger than the drawable area along an axis, `constrainPosition`
returns the drawable area's centre coordinate on that axis (which equals
half the stage extent), regardless of the requested position. -/
theorem constrainPosition_center_pin (x y scale : ℚ) (rotation : ℤ)
    (image : ImageSize) (stageSize : StageSize) (styleType : StyleType) :
    ((image.width * cosAbsDeg rotation + image.height * sinAbsDeg rotation) * scale ≤
        stageSize.width * (1 - marginOf styleType * 2) →
      (constrainPosition x y scale rotation image stageSize styleType).x =
        stageSize.width / 2) ∧
    ((image.width * sinAbsDeg rotation + image.height * cosAbsDeg rotation) * scale ≤
        stageSize.height * (1 - marginOf styleType * 2) →
      (constrainPosition x y scale rotation image stageSize styleType).y =
        stageSize.height / 2) := by
  constructor
  · intro h
    simp only [constrainPosition]
    rw [clamp_pins_center _ _ _ _ h]
    ring
  · intro h
    simp only [constrainPosition]
    rw [clamp_pins_center _ _ _ _ h]
    ring

/-- Witness for C10 at a concrete input: a 10×10 image at scale 1 inside a
100×100 white-margin stage is pinned to the stage centre on both axes. -/
theorem constrainPosition_center_pin_witness :
    (constrainPosition 7 93 1 0 ⟨10, 10⟩ ⟨100, 100⟩ StyleType.white_margin).x = 100 / 2 ∧
    (constrainPosition 7 93 1 0 ⟨10, 10⟩ ⟨100, 100⟩ StyleType.white_margin).y = 100 / 2 := by
  have h := constrainPosition_center_pin 7 93 1 0 ⟨10, 10⟩ ⟨100, 100⟩ StyleType.white_margin
  exact ⟨h.1 (by norm_num [cosAbsDeg, sinAbsDeg, marginOf, WHITE_MARGIN_PERCENT]),
    h.2 (by norm_num [cosAbsDeg, sinAbsDeg, marginOf, WHITE_MARGIN_PERCENT])⟩

/-- Claim C1, counterexample: a photo whose stored transform has positive
`containerWidth` (300) but zero `containerHeight` makes `scaleTransform`
return `null` for the positive target width 600, so rescaling produces no
transform at all and no round trip back to the original exists. -/
theorem scaleTransform_roundtrip_counterexample :
    (0 : ℚ) < 300 ∧ (0 : ℚ) < 600 ∧
    scaleTransform
      { id := 0, quantity := 1, width := 4000, height := 3000,
        transform := some
          { position := ⟨10, 20⟩, scale := 2, rotation := 90,
            containerWidth := 300, containerHeight := 0 },
        autoRotated := false } 600 = none := by
  refine ⟨by norm_num, by norm_num, ?_⟩
  simp [scaleTransform]

/-- Claim C1 (amended): for every photo whose stored transform has
positive `containerWidth` and non-zero `containerHeight`, rescaling to a
positive target width `W2` succeeds, and rescaling the result (stored at
container width `W2` with any non-zero container height) back to the
original `containerWidth` returns exactly the original position, scale
and rotation. -/
theorem scaleTransform_roundtrip (p : Photo) (t : PhotoTransform) (W2 H2 : ℚ)
    (hp : p.transform = some t) (hW1 : 0 < t.containerWidth)
    (hH1 : t.containerHeight ≠ 0) (hW2 : 0 < W2) (hH2 : H2 ≠ 0) :
    ∃ r, scaleTransform p W2 = some r ∧
      scaleTransform
        { p with
          transform := some { position := r.position, scale := r.scale,
                              rotation := r.rotation, containerWidth := W2,
                              containerHeight := H2 } }
        t.containerWidth =
        some { position := t.position, scale := t.scale, rotation := t.rotation } := by
  obtain ⟨⟨tx, ty⟩, ts, trot, tcw, tch⟩ := t
  simp only at hp hW1 hH1 ⊢
  have hW1' : tcw ≠ 0 := ne_of_gt hW1
  have hW2' : W2 ≠ 0 := ne_of_gt hW2
  refine ⟨{ position := ⟨tx * (W2 / tcw), ty * (W2 / tcw)⟩,
            scale := ts * (W2 / tcw), rotation := trot }, ?_, ?_⟩
  · simp only [scaleTransform, hp]
    rw [if_neg (by push_neg; exact ⟨hW1', hH1⟩)]
  · simp only [scaleTransform]
    rw [if_neg (by push_neg; exact ⟨hW2', hH2⟩)]
    simp only [Option.some.injEq, ScaledTransform.mk.injEq, Position.mk.injEq]
    refine ⟨⟨?_, ?_⟩, ?_, trivial⟩ <;> field_simp

/-- Witness for C1 (amended) at a concrete input: the transform of
Scenario C (captured at container width 300) survives a rescale to 600
and back. -/
theorem scaleTransform_roundtrip_witness :
    ∃ r, scaleTransform
        { id := 0, quantity := 1, width := 4000, height := 3000,
          transform := some
            { position := ⟨10, 20⟩, scale := 2, rotation := 90,
              containerWidth := 300, containerHeight := 428 },
          autoRotated := false } 600 = some r ∧
      scaleTransform
        { id := 0, quantity := 1, width := 4000, height := 3000,
          transform := some
            { position := r.position, scale := r.scale, rotation := r.rotation,
              containerWidth := 600, containerHeight := 856 },
          autoRotated := false } 300 =
        some { position := ⟨10, 20⟩, scale := 2, rotation := 90 } := by
  have h := scaleTransform_roundtrip
    { id := 0, quantity := 1, width := 4000, height := 3000,
      transform := some
        { position := ⟨10, 20⟩, scale := 2, rotation := 90,
          containerWidth := 300, containerHeight := 428 },
      autoRotated := false }
    { position := ⟨10, 20⟩, scale := 2, rotation := 90,
      containerWidth := 300, containerHeight := 428 }
    600 856 rfl (by norm_num) (by norm_num) (by norm_num) (by norm_num)
  exact h

/-- Claim C3, counterexample: for a 100×100 image on a 100×100 stage at
rotation 0 in white-margin style, the drawable area is 90×90, the exact
fit scale `min(dw/bw, dh/bh)` is 9/10, but `getMinScale` returns 9/20 —
half the fit scale, not the fit scale. -/
theorem getMinScale_contain_counterexample :
    getMinScale ⟨100, 100⟩ ⟨100, 100⟩ StyleType.white_margin 0 = 9 / 20 ∧
    min (((100 : ℚ) * (1 - 5 / 100 * 2)) / 100) (((100 : ℚ) * (1 - 5 / 100 * 2)) / 100) =
      9 / 10 ∧
    (9 / 20 : ℚ) ≠ 9 / 10 := by
  refine ⟨?_, by norm_num, by norm_num⟩
  norm_num [getMinScale, marginOf, cosAbsDeg, sinAbsDeg, WHITE_MARGIN_PERCENT]

/-- Claim C3 (amended): for the white-margin (Contain) style,
`getMinScale` returns HALF the exact fit scale
`min(drawableWidth / rotatedWidth, drawableHeight / rotatedHeight)`
(the editor deliberately lets the user zoom out below fit), and at twice
`getMinScale` — the exact fit scale — the rotated bounding box still fits
inside the drawable area on both axes, so no part of the image is
clipped at that scale. -/
theorem getMinScale_contain_half_fit (image : ImageSize) (stageSize : StageSize)
    (rotation : ℤ) (hiw : 0 < image.width) (hih : 0 < image.height)
    (hsw : 0 ≤ stageSize.width) (hsh : 0 ≤ stageSize.height) :
    2 * getMinScale image stageSize StyleType.white_margin rotation =
      min (stageSize.width * (1 - WHITE_MARGIN_PERCENT / 100 * 2) /
            (image.width * cosAbsDeg rotation + image.height * sinAbsDeg rotation))
          (stageSize.height * (1 - WHITE_MARGIN_PERCENT / 100 * 2) /
            (image.width * sinAbsDeg rotation + image.height * cosAbsDeg rotation)) ∧
    (image.width * cosAbsDeg rotation + image.height * sinAbsDeg rotation) *
        (2 * getMinScale image stageSize StyleType.white_margin rotation) ≤
      stageSize.width * (1 - WHITE_MARGIN_PERCENT / 100 * 2) ∧
    (image.width * sinAbsDeg rotation + image.height * cosAbsDeg rotation) *
        (2 * getMinScale image stageSize StyleType.white_margin rotation) ≤
      stageSize.height * (1 - WHITE_MARGIN_PERCENT / 100 * 2) := by
  have hbwbh : 0 < image.width * cosAbsDeg rotation + image.height * sinAbsDeg rotation ∧
      0 < image.width * sinAbsDeg rotation + image.height * cosAbsDeg rotation := by
    rcases cosSin_cases rotation with ⟨hc, hs⟩ | ⟨hc, hs⟩ <;> rw [hc, hs] <;>
      constructor <;> linarith
  obtain ⟨hbw, hbh⟩ := hbwbh
  have hmin : 2 * getMinScale image stageSize StyleType.white_margin rotation =
      min (stageSize.width * (1 - WHITE_MARGIN_PERCENT / 100 * 2) /
            (image.width * cosAbsDeg rotation + image.height * sinAbsDeg rotation))
          (stageSize.height * (1 - WHITE_MARGIN_PERCENT / 100 * 2) /
            (image.width * sinAbsDeg rotation + image.height * cosAbsDeg rotation)) := by
    simp [getMinScale, marginOf]
    ring
  refine ⟨hmin, ?_, ?_⟩
  · rw [hmin]
    calc (image.width * cosAbsDeg rotation + image.height * sinAbsDeg rotation) *
          min (stageSize.width * (1 - WHITE_MARGIN_PERCENT / 100 * 2) /
                (image.width * cosAbsDeg rotation + image.height * sinAbsDeg rotation))
              (stageSize.height * (1 - WHITE_MARGIN_PERCENT / 100 * 2) /
                (image.width * sinAbsDeg rotation + image.height * cosAbsDeg rotation)) ≤
        (image.width * cosAbsDeg rotation + image.height * sinAbsDeg rotation) *
          (stageSize.width * (1 - WHITE_MARGIN_PERCENT / 100 * 2) /
            (image.width * cosAbsDeg rotation + image.height * sinAbsDeg rotation)) :=
          mul_le_mul_of_nonneg_left (min_le_left _ _) (le_of_lt hbw)
      _ = stageSize.width * (1 - WHITE_MARGIN_PERCENT / 100 * 2) :=
          mul_div_cancel₀ _ (ne_of_gt hbw)
  · rw [hmin]
    calc (image.width * sinAbsDeg rotation + image.height * cosAbsDeg rotation) *
          min (stageSize.width * (1 - WHITE_MARGIN_PERCENT / 100 * 2) /
                (image.width * cosAbsDeg rotation + image.height * sinAbsDeg rotation))
              (stageSize.height * (1 - WHITE_MARGIN_PERCENT / 100 * 2) /
                (image.width * sinAbsDeg rotation + image.height * cosAbsDeg rotation)) ≤
        (image.width * sinAbsDeg rotation + image.height * cosAbsDeg rotation) *
          (stageSize.height * (1 - WHITE_MARGIN_PERCENT / 100 * 2) /
            (image.width * sinAbsDeg rotation + image.height * cosAbsDeg rotation)) :=
          mul_le_mul_of_nonneg_left (min_le_right _ _) (le_of_lt hbh)
      _ = stageSize.height * (1 - WHITE_MARGIN_PERCENT / 100 * 2) :=
          mul_div_cancel₀ _ (ne_of_gt hbh)

/-- Witness for C3 (amended) at Scenario B's photo: a 4000×3000 image on a
70×100 stage at rotation 90. -/
theorem getMinScale_contain_half_fit_witness :
    2 * getMinScale ⟨4000, 3000⟩ ⟨70, 100⟩ StyleType.white_margin 90 =
      min ((70 : ℚ) * (1 - WHITE_MARGIN_PERCENT / 100 * 2) /
            (4000 * cosAbsDeg 90 + 3000 * sinAbsDeg 90))
          ((100 : ℚ) * (1 - WHITE_MARGIN_PERCENT / 100 * 2) /
            (4000 * sinAbsDeg 90 + 3000 * cosAbsDeg 90)) ∧
    ((4000 : ℚ) * cosAbsDeg 90 + 3000 * sinAbsDeg 90) *
        (2 * getMinScale ⟨4000, 3000⟩ ⟨70, 100⟩ StyleType.white_margin 90) ≤
      70 * (1 - WHITE_MARGIN_PERCENT / 100 * 2) ∧
    ((4000 : ℚ) * sinAbsDeg 90 + 3000 * cosAbsDeg 90) *
        (2 * getMinScale ⟨4000, 3000⟩ ⟨70, 100⟩ StyleType.white_margin 90) ≤
      100 * (1 - WHITE_MARGIN_PERCENT / 100 * 2) :=
  getMinScale_contain_half_fit ⟨4000, 3000⟩ ⟨70, 100⟩ 90
    (by norm_num) (by norm_num) (by norm_num) (by norm_num)

/-- Claim C4, counterexample: white-margin style, 100×100 image on a
100×100 stage, rotation 0.  Scale 2 is reachable (getMinScale = 9/20 ≤ 2 ≤
5·getMinScale = 9/4), yet the clamped position for the requested point
(1000, 50) leaves the rotated scaled box sticking far outside the 90×90
drawable area: `constrainPosition` uses the cover-style clamp for both
styles, so it never forces the box back inside. -/
theorem contain_invariant_counterexample :
    getMinScale ⟨100, 100⟩ ⟨100, 100⟩ StyleType.white_margin 0 ≤ 2 ∧
    2 ≤ 5 * getMinScale ⟨100, 100⟩ ⟨100, 100⟩ StyleType.white_margin 0 ∧
    (0 : ℤ) % 90 = 0 ∧
    ¬ boxWithinDrawable
        (constrainPosition 1000 50 2 0 ⟨100, 100⟩ ⟨100, 100⟩ StyleType.white_margin)
        2 0 ⟨100, 100⟩ ⟨100, 100⟩ StyleType.white_margin := by
  refine ⟨?_, ?_, by decide, ?_⟩
  · norm_num [getMinScale, marginOf, cosAbsDeg, sinAbsDeg, WHITE_MARGIN_PERCENT]
  · norm_num [getMinScale, marginOf, cosAbsDeg, sinAbsDeg, WHITE_MARGIN_PERCENT]
  · norm_num [boxWithinDrawable, drawableLeft, drawableRight, drawableTop,
      drawableBottom, scaledHalfWidth, scaledHalfHeight, constrainPosition,
      marginOf, cosAbsDeg, sinAbsDeg, WHITE_MARGIN_PERCENT]

/-- Claim C4 (amended): for the white-margin style the clamp keeps the
rotated scaled bounding box inside the drawable area exactly when the box
is no larger than the drawable area on both axes (which holds up to the
exact fit scale, i.e. up to twice `getMinScale`, but not at every
reachable scale up to `5 × getMinScale`): under those hypotheses every
output of `constrainPosition` places the box fully inside the drawable
area. -/
theorem contain_invariant_at_fit (x y scale : ℚ) (rotation : ℤ)
    (image : ImageSize) (stageSize : StageSize)
    (hW : (image.width * cosAbsDeg rotation + image.height * sinAbsDeg rotation) * scale ≤
      stageSize.width * (1 - marginOf StyleType.white_margin * 2))
    (hH : (image.width * sinAbsDeg rotation + image.height * cosAbsDeg rotation) * scale ≤
      stageSize.height * (1 - marginOf StyleType.white_margin * 2)) :
    boxWithinDrawable
      (constrainPosition x y scale rotation image stageSize StyleType.white_margin)
      scale rotation image stageSize StyleType.white_margin := by
  simp only [boxWithinDrawable, constrainPosition, drawableLeft, drawableRight,
    drawableTop, drawableBottom, scaledHalfWidth, scaledHalfHeight]
  rw [clamp_pins_center _ _ _ _ hW, clamp_pins_center _ _ _ _ hH]
  refine ⟨by linarith, by linarith, by linarith, by linarith⟩

/-- Witness for C4 (amended): 100×100 image on a 100×100 stage at the
exact fit scale 9/10 and rotation 0; the requested position (1000, 0) is
clamped to a spot whose box stays inside the drawable area. -/
theorem contain_invariant_at_fit_witness :
    boxWithinDrawable
      (constrainPosition 1000 0 (9 / 10) 0 ⟨100, 100⟩ ⟨100, 100⟩ StyleType.white_margin)
      (9 / 10) 0 ⟨100, 100⟩ ⟨100, 100⟩ StyleType.white_margin :=
  contain_invariant_at_fit 1000 0 (9 / 10) 0 ⟨100, 100⟩ ⟨100, 100⟩
    (by norm_num [cosAbsDeg, sinAbsDeg, marginOf, WHITE_MARGIN_PERCENT])
    (by norm_num [cosAbsDeg, sinAbsDeg, marginOf, WHITE_MARGIN_PERCENT])

/-- Claim C5: cover invariant — for the full-bleed style, for every scale
at least `getMinScale`, every rotation that is a multiple of 90 degrees
and every requested position, the position returned by
`constrainPosition` makes the rotated scaled bounding box fully cover the
drawable area (the whole stage), so no background shows. -/
theorem cover_invariant (x y scale : ℚ) (rotation : ℤ)
    (image : ImageSize) (stageSize : StageSize)
    (hiw : 0 < image.width) (hih : 0 < image.height)
    (hsw : 0 ≤ stageSize.width) (hsh : 0 ≤ stageSize.height)
    (hrot : rotation % 90 = 0)
    (hscale : getMinScale image stageSize StyleType.full_bleed rotation ≤ scale) :
    boxCoversDrawable
      (constrainPosition x y scale rotation image stageSize StyleType.full_bleed)
      scale rotation image stageSize StyleType.full_bleed := by
  have hbw : 0 < image.width * cosAbsDeg rotation + image.height * sinAbsDeg rotation := by
    rcases cosSin_cases rotation with ⟨hc, hs⟩ | ⟨hc, hs⟩ <;> rw [hc, hs] <;> linarith
  have hbh : 0 < image.width * sinAbsDeg rotation + image.height * cosAbsDeg rotation := by
    rcases cosSin_cases rotation with ⟨hc, hs⟩ | ⟨hc, hs⟩ <;> rw [hc, hs] <;> linarith
  have hminW : stageSize.width * (1 - marginOf StyleType.full_bleed * 2) /
      (image.width * cosAbsDeg rotation + image.height * sinAbsDeg rotation) ≤ scale := by
    refine le_trans ?_ hscale
    simp only [getMinScale]
    exact le_max_left _ _
  have hminH : stageSize.height * (1 - marginOf StyleType.full_bleed * 2) /
      (image.width * sinAbsDeg rotation + image.height * cosAbsDeg rotation) ≤ scale := by
    refine le_trans ?_ hscale
    simp only [getMinScale]
    exact le_max_right _ _
  have hW : stageSize.width * (1 - marginOf StyleType.full_bleed * 2) ≤
      (image.width * cosAbsDeg rotation + image.height * sinAbsDeg rotation) * scale := by
    rw [div_le_iff hbw] at hminW
    linarith
  have hH : stageSize.height * (1 - marginOf StyleType.full_bleed * 2) ≤
      (image.width * sinAbsDeg rotation + image.height * cosAbsDeg rotation) * scale := by
    rw [div_le_iff hbh] at hminH
    linarith
  simp only [boxCoversDrawable, constrainPosition, drawableLeft, drawableRight,
    drawableTop, drawableBottom, scaledHalfWidth, scaledHalfHeight]
  obtain ⟨hx1, hx2⟩ := clamp_covers x
    (stageSize.width * (1 - marginOf StyleType.full_bleed * 2))
    (stageSize.width * marginOf StyleType.full_bleed)
    ((image.width * cosAbsDeg rotation + image.height * sinAbsDeg rotation) * scale) hW
  obtain ⟨hy1, hy2⟩ := clamp_covers y
    (stageSize.height * (1 - marginOf StyleType.full_bleed * 2))
    (stageSize.height * marginOf StyleType.full_bleed)
    ((image.width * sinAbsDeg rotation + image.height * cosAbsDeg rotation) * scale) hH
  have hmargin : marginOf StyleType.full_bleed = 0 := rfl
  rw [hmargin] at hx1 hx2 hy1 hy2 ⊢
  refine ⟨by linarith, by linarith, by linarith, by linarith⟩

/-- Witness for C5: Scenario A's 4000×3000 photo on a 70×100 stage at
rotation 90 and scale 3 ≥ getMinScale = 1/20·max(70/30, 100/40)·... ; the
requested position (1000, -50) is clamped so the box covers the stage. -/
theorem cover_invariant_witness :
    boxCoversDrawable
      (constrainPosition 1000 (-50) 3 90 ⟨4000, 3000⟩ ⟨70, 100⟩ StyleType.full_bleed)
      3 90 ⟨4000, 3000⟩ ⟨70, 100⟩ StyleType.full_bleed :=
  cover_invariant 1000 (-50) 3 90 ⟨4000, 3000⟩ ⟨70, 100⟩
    (by norm_num) (by norm_num) (by norm_num) (by norm_num) (by decide)
    (by simp [getMinScale, marginOf, cosAbsDeg, sinAbsDeg, max_le_iff]; norm_num)

/- ==================== Upload queue invariants ==================== -/

/-- Reachability invariant of the pipeline: the number of in-flight
uploads never exceeds the ceiling, and while the waiting queue is
non-empty every slot is occupied. -/
def QueueInv (s : QueueState) : Prop :=
  s.inflight.length ≤ MAX_CONCURRENT_UPLOADS ∧
  (s.queue ≠ [] → s.inflight.length = MAX_CONCURRENT_UPLOADS)

lemma tryStartFrom_inv (q : List ℕ) : ∀ inflight : List ℕ,
    inflight.length ≤ MAX_CONCURRENT_UPLOADS → QueueInv (tryStartFrom inflight q) := by
  induction q with
  | nil => exact fun inflight h => ⟨h, fun hne => absurd rfl hne⟩
  | cons item rest ih =>
    intro inflight h
    simp only [tryStartFrom]
    by_cases hfull : MAX_CONCURRENT_UPLOADS ≤ inflight.length
    · rw [if_pos hfull]
      exact ⟨h, fun _ => le_antisymm h hfull⟩
    · rw [if_neg hfull]
      exact ih (item :: inflight) (by simp only [List.length_cons]; omega)

lemma tryStartFrom_full (q inflight : List ℕ)
    (h : MAX_CONCURRENT_UPLOADS ≤ inflight.length) :
    tryStartFrom inflight q = { queue := q, inflight := inflight } := by
  cases q with
  | nil => rfl
  | cons a as => simp [tryStartFrom, if_pos h]

lemma tryStartFrom_nodup (q : List ℕ) : ∀ inflight : List ℕ,
    q.Nodup → (tryStartFrom inflight q).queue.Nodup := by
  induction q with
  | nil => intro inflight _; simp [tryStartFrom]
  | cons item rest ih =>
    intro inflight h
    simp only [tryStartFrom]
    by_cases hfull : MAX_CONCURRENT_UPLOADS ≤ inflight.length
    · rw [if_pos hfull]
      exact h
    · rw [if_neg hfull]
      exact ih _ (List.Nodup.of_cons h)

lemma applyEvent_inv (s : QueueState) (e : UploadEvent) (h : QueueInv s) :
    QueueInv (applyEvent s e) := by
  cases e with
  | enqueue pid =>
    simp only [applyEvent, addToUploadQueue]
    by_cases hmem : pid ∈ s.queue
    · rw [if_pos hmem]; exact h
    · rw [if_neg hmem]
      exact tryStartFrom_inv _ _ h.1
  | complete pid =>
    simp only [applyEvent, completeUpload]
    by_cases hmem : pid ∈ s.inflight
    · rw [if_pos hmem]
      exact tryStartFrom_inv _ _
        (le_trans (List.Sublist.length_le (List.erase_sublist pid s.inflight)) h.1)
    · rw [if_neg hmem]; exact h

lemma applyEvent_nodup (s : QueueState) (e : UploadEvent)
    (h : s.queue.Nodup) : (applyEvent s e).queue.Nodup := by
  cases e with
  | enqueue pid =>
    simp only [applyEvent, addToUploadQueue]
    by_cases hmem : pid ∈ s.queue
    · rw [if_pos hmem]; exact h
    · rw [if_neg hmem]
      exact tryStartFrom_nodup _ _ (by simp [List.nodup_append, h, hmem])
  | complete pid =>
    simp only [applyEvent, completeUpload]
    by_cases hmem : pid ∈ s.inflight
    · rw [if_pos hmem]
      exact tryStartFrom_nodup _ _ h
    · rw [if_neg hmem]; exact h

lemma runEvents_inv (events : List UploadEvent) :
    QueueInv (runEvents events) ∧ (runEvents events).queue.Nodup := by
  suffices h : ∀ s : QueueState, QueueInv s → s.queue.Nodup →
      QueueInv (events.foldl applyEvent s) ∧ (events.foldl applyEvent s).queue.Nodup by
    exact h ⟨[], []⟩ ⟨by simp [MAX_CONCURRENT_UPLOADS], fun hne => absurd rfl hne⟩
      (by simp)
  induction events with
  | nil => exact fun s h1 h2 => ⟨h1, h2⟩
  | cons e es ih =>
    intro s h1 h2
    exact ih _ (applyEvent_inv s e h1) (applyEvent_nodup s e h2)

lemma complete_immediate (s : QueueState) (pid : ℕ) (hInv : QueueInv s)
    (hmem : pid ∈ s.inflight) (hq : s.queue ≠ []) :
    (completeUpload pid s).inflight.length = s.inflight.length := by
  obtain ⟨h1, h2⟩ := hInv
  have hlen : s.inflight.length = MAX_CONCURRENT_UPLOADS := h2 hq
  have herase : (s.inflight.erase pid).length = MAX_CONCURRENT_UPLOADS - 1 := by
    rw [List.length_erase_of_mem hmem, hlen]
  obtain ⟨q0, qrest, hq'⟩ : ∃ a l, s.queue = a :: l := by
    cases hsq : s.queue with
    | nil => exact absurd hsq hq
    | cons a l => exact ⟨a, l, rfl⟩
  simp only [completeUpload, if_pos hmem, tryStartNextUpload, hq', tryStartFrom]
  rw [if_neg (by rw [herase]; simp [MAX_CONCURRENT_UPLOADS])]
  rw [tryStartFrom_full _ _ (by simp only [List.length_cons, herase]; omega)]
  simp only [List.length_cons, herase, hlen]
  decide

/-- Claim C6: upload concurrency bound — for every sequence of enqueue and
completion events starting from the empty pipeline, the number of
simultaneously in-flight uploads never exceeds
`MAX_CONCURRENT_UPLOADS = 3`, and completing an in-flight task while the
queue is non-empty immediately starts the next queued task (the in-flight
count is unchanged: the freed slot is refilled at once). -/
theorem upload_concurrency_bound (events : List UploadEvent) :
    (runEvents events).inflight.length ≤ MAX_CONCURRENT_UPLOADS ∧
    ∀ photoId, photoId ∈ (runEvents events).inflight →
      (runEvents events).queue ≠ [] →
      (completeUpload photoId (runEvents events)).inflight.length =
        (runEvents events).inflight.length := by
  obtain ⟨hInv, _⟩ := runEvents_inv events
  exact ⟨hInv.1, fun pid hmem hq => complete_immediate _ pid hInv hmem hq⟩

/-- Witness for C6: after four enqueues, three uploads are in flight and
one photo waits; completing upload 2 starts it at once, keeping three in
flight. -/
theorem upload_concurrency_bound_witness :
    (runEvents [UploadEvent.enqueue 1, UploadEvent.enqueue 2, UploadEvent.enqueue 3,
        UploadEvent.enqueue 4]).inflight.length ≤ MAX_CONCURRENT_UPLOADS ∧
    (completeUpload 2 (runEvents [UploadEvent.enqueue 1, UploadEvent.enqueue 2,
        UploadEvent.enqueue 3, UploadEvent.enqueue 4])).inflight.length =
      (runEvents [UploadEvent.enqueue 1, UploadEvent.enqueue 2, UploadEvent.enqueue 3,
        UploadEvent.enqueue 4]).inflight.length := by
  have h := upload_concurrency_bound [UploadEvent.enqueue 1, UploadEvent.enqueue 2,
    UploadEvent.enqueue 3, UploadEvent.enqueue 4]
  exact ⟨h.1, h.2 2 (by decide) (by decide)⟩

/-- Claim C7, counterexample: after enqueueing photo 1 it is in flight
with an empty queue; enqueueing photo 1 again is NOT a no-op —
`addToUploadQueue` only deduplicates against the waiting queue, so the
photo is queued and immediately started a second time, leaving two
concurrent upload tasks for the same photo. -/
theorem enqueue_inflight_counterexample :
    1 ∈ (runEvents [UploadEvent.enqueue 1]).inflight ∧
    1 ∉ (runEvents [UploadEvent.enqueue 1]).queue ∧
    addToUploadQueue 1 (runEvents [UploadEvent.enqueue 1]) ≠
      runEvents [UploadEvent.enqueue 1] ∧
    (addToUploadQueue 1 (runEvents [UploadEvent.enqueue 1])).inflight = [1, 1] := by
  decide

/-- Claim C7 (amended): enqueue is a no-op only when the photoId is
already *waiting in the queue* (so the waiting queue never holds
duplicates); a photoId whose task is in flight but no longer queued is
enqueued — and started — again. -/
theorem enqueue_queued_noop (events : List UploadEvent) (photoId : ℕ)
    (h : photoId ∈ (runEvents events).queue) :
    addToUploadQueue photoId (runEvents events) = runEvents events ∧
    (runEvents events).queue.Nodup := by
  obtain ⟨_, hnodup⟩ := runEvents_inv events
  exact ⟨by simp [addToUploadQueue, h], hnodup⟩

/-- Witness for C7 (amended): photo 4 waits in the queue after four
enqueues; enqueueing it again changes nothing. -/
theorem enqueue_queued_noop_witness :
    addToUploadQueue 4 (runEvents [UploadEvent.enqueue 1, UploadEvent.enqueue 2,
        UploadEvent.enqueue 3, UploadEvent.enqueue 4]) =
      runEvents [UploadEvent.enqueue 1, UploadEvent.enqueue 2, UploadEvent.enqueue 3,
        UploadEvent.enqueue 4] ∧
    (runEvents [UploadEvent.enqueue 1, UploadEvent.enqueue 2, UploadEvent.enqueue 3,
        UploadEvent.enqueue 4]).queue.Nodup :=
  enqueue_queued_noop [UploadEvent.enqueue 1, UploadEvent.enqueue 2,
    UploadEvent.enqueue 3, UploadEvent.enqueue 4] 4 (by decide)

/- ==================== Batch processing lemmas ==================== -/

lemma downloadAllFrom_spec {ε : Type} (process : ℕ → Except ε Unit) :
    ∀ (photos : List ℕ) (i : ℕ),
      (downloadAllFrom process i photos).1 =
        photos.takeWhile (fun p => isSuccess (process p)) ∧
      ((downloadAllFrom process i photos).2 = none ↔
        ∀ p ∈ photos, isSuccess (process p)) := by
  intro photos
  induction photos with
  | nil => intro i; simp [downloadAllFrom]
  | cons p rest ih =>
    intro i
    obtain ⟨ih1, ih2⟩ := ih (i + 1)
    cases hp : process p with
    | ok u =>
      have hps : isSuccess (process p) = true := by rw [hp]; rfl
      have hstep : downloadAllFrom process i (p :: rest) =
          (p :: (downloadAllFrom process (i + 1) rest).1,
            (downloadAllFrom process (i + 1) rest).2) := by
        simp [downloadAllFrom, hp]
      rw [hstep]
      constructor
      · rw [List.takeWhile_cons, hps]
        simp [ih1]
      · rw [ih2]
        constructor
        · intro hall q hq
          rcases List.mem_cons.mp hq with hq | hq
          · subst hq; exact hps
          · exact hall q hq
        · intro hall q hq
          exact hall q (List.mem_cons_of_mem p hq)
    | error e =>
      have hps : isSuccess (process p) = false := by rw [hp]; rfl
      have hstep : downloadAllFrom process i (p :: rest) = ([], some (i + 1)) := by
        simp [downloadAllFrom, hp]
      rw [hstep]
      constructor
      · rw [List.takeWhile_cons, hps]
        rfl
      · simp only [Option.some_ne_none, false_iff]
        intro hall
        have hcontra := hall p (List.mem_cons_self p rest)
        rw [hps] at hcontra
        exact Bool.false_ne_true hcontra

lemma prepareOrder_spec {ε : Type} (process : ℕ → Except ε Unit)
    (photos : List ℕ) :
    (isSuccess (prepareOrderSubmitData process photos) = true ↔
      ∀ p ∈ photos, isSuccess (process p)) := by
  induction photos with
  | nil => simp [prepareOrderSubmitData, isSuccess]
  | cons p rest ih =>
    cases hp : process p with
    | ok u =>
      have hps : isSuccess (process p) = true := by rw [hp]; rfl
      have hstep : prepareOrderSubmitData process (p :: rest) =
          (prepareOrderSubmitData process rest).map fun l => p :: l := by
        simp [prepareOrderSubmitData, hp]
      rw [hstep]
      cases hrest : prepareOrderSubmitData process rest with
      | ok l =>
        rw [hrest] at ih
        constructor
        · intro _ q hq
          rcases List.mem_cons.mp hq with hq | hq
          · subst hq; exact hps
          · exact ih.mp rfl q hq
        · intro _; rfl
      | error e =>
        rw [hrest] at ih
        constructor
        · intro h
          exact absurd h (by simp [Except.map, isSuccess])
        · intro hall
          have hcontra := ih.mpr fun q hq => hall q (List.mem_cons_of_mem p hq)
          exact absurd hcontra (by simp [isSuccess])
    | error e =>
      have hstep : prepareOrderSubmitData process (p :: rest) = Except.error e := by
        simp [prepareOrderSubmitData, hp]
      rw [hstep]
      constructor
      · intro h
        exact absurd h (by simp [isSuccess])
      · intro hall
        have hcontra := hall p (List.mem_cons_self p rest)
        rw [hp] at hcontra
        exact absurd hcontra (by simp [isSuccess])

/-- Claim C8, counterexample: with a processing step that fails on photo 1
and succeeds on photo 2, `downloadAllPhotos [1, 2]` triggers no download
at all — photo 2 is NOT processed, the whole batch is aborted with the
rethrown error of photo 1 — and `prepareOrderSubmitData [1, 2]` likewise
rethrows instead of continuing with photo 2. -/
theorem batch_abort_counterexample :
    (downloadAllPhotos (fun n => if n = 1 then Except.error 42 else Except.ok ())
        [1, 2]).1 = [] ∧
    2 ∉ (downloadAllPhotos (fun n => if n = 1 then Except.error 42 else Except.ok ())
        [1, 2]).1 ∧
    (downloadAllPhotos (fun n => if n = 1 then Except.error 42 else Except.ok ())
        [1, 2]).2 = some 1 ∧
    prepareOrderSubmitData (fun n => if n = 1 then Except.error 42 else Except.ok ())
        [1, 2] = Except.error 42 := by
  refine ⟨rfl, by decide, rfl, rfl⟩

/-- Claim C8 (amended): a per-photo failure aborts the batch at that
photo: `downloadAllPhotos` processes exactly the photos strictly before
the first failure (no later photo is processed) and reports no error iff
every photo succeeds, and `prepareOrderSubmitData` succeeds iff every
photo's composition succeeds (otherwise the first error is rethrown and
the batch stops). -/
theorem batch_stops_at_first_failure {ε : Type} (process : ℕ → Except ε Unit)
    (photos : List ℕ) :
    (downloadAllPhotos process photos).1 =
      photos.takeWhile (fun p => isSuccess (process p)) ∧
    ((downloadAllPhotos process photos).2 = none ↔
      ∀ p ∈ photos, isSuccess (process p)) ∧
    (isSuccess (prepareOrderSubmitData process photos) = true ↔
      ∀ p ∈ photos, isSuccess (process p)) := by
  obtain ⟨h1, h2⟩ := downloadAllFrom_spec process photos 0
  exact ⟨h1, h2, prepareOrder_spec process photos⟩

/-- Witness for C8 (amended) at a concrete input: failure on photo 1 in
the batch [0, 1, 2]. -/
theorem batch_stops_at_first_failure_witness :
    (downloadAllPhotos (fun n => if n = 1 then Except.error 42 else Except.ok ())
        [0, 1, 2]).1 =
      List.takeWhile
        (fun p => isSuccess ((fun n => if n = 1 then Except.error 42 else Except.ok ()) p))
        [0, 1, 2] ∧
    ((downloadAllPhotos (fun n => if n = 1 then Except.error 42 else Except.ok ())
        [0, 1, 2]).2 = none ↔
      ∀ p ∈ [0, 1, 2],
        isSuccess ((fun n => if n = 1 then Except.error 42 else Except.ok ()) p)) ∧
    (isSuccess (prepareOrderSubmitData
        (fun n => if n = 1 then Except.error 42 else Except.ok ()) [0, 1, 2]) = true ↔
      ∀ p ∈ [0, 1, 2],
        isSuccess ((fun n => if n = 1 then Except.error 42 else Except.ok ()) p)) :=
  batch_stops_at_first_failure
    (fun n => if n = 1 then Except.error 42 else Except.ok ()) [0, 1, 2]

/-- Claim C9: quantity lower bound — if every photo's quantity is at least
1, then after `handleQuantityChange` every photo's quantity is still at
least 1 (decrementing a quantity-1 photo leaves it at 1: the floored
value `max 1 (1 + (-1)) = 1` keeps the photo unchanged), and every photo
with a different id is kept in the list entirely unchanged. -/
theorem handleQuantityChange_keeps_min_one (photos : List Photo) (id : ℕ)
    (delta : ℤ) (h : ∀ p ∈ photos, 1 ≤ p.quantity) :
    (∀ p ∈ handleQuantityChange photos id delta, 1 ≤ p.quantity) ∧
    (∀ p ∈ photos, p.id ≠ id → p ∈ handleQuantityChange photos id delta) ∧
    (∀ p ∈ photos, p.id = id → p.quantity = 1 → delta = -1 →
      p ∈ handleQuantityChange photos id delta) := by
  refine ⟨?_, ?_, ?_⟩
  · intro p hp
    simp only [handleQuantityChange, List.mem_map] at hp
    obtain ⟨q, hq, hmap⟩ := hp
    by_cases hid : q.id = id
    · rw [if_pos hid] at hmap
      rw [← hmap]
      exact le_max_left _ _
    · rw [if_neg hid] at hmap
      rw [← hmap]
      exact h q hq
  · intro p hp hid
    have : (if p.id = id then
        { p with quantity := max 1 (p.quantity + delta) } else p) = p := if_neg hid
    rw [handleQuantityChange]
    exact this ▸ List.mem_map_of_mem _ hp
  · intro p hp hid hq hdelta
    have hval : (if p.id = id then
        { p with quantity := max 1 (p.quantity + delta) } else p) = p := by
      rw [if_pos hid, hdelta, hq]
      cases p
      simp_all
    rw [handleQuantityChange]
    exact hval ▸ List.mem_map_of_mem _ hp

/-- Photo list for the C9 witness: photo 1 at quantity 1, photo 2 at
quantity 5. -/
def witnessPhotos : List Photo :=
  [{ id := 1, quantity := 1, width := 40, height := 30, transform := none,
     autoRotated := true },
   { id := 2, quantity := 5, width := 30, height := 40, transform := none,
     autoRotated := false }]

/-- Witness for C9: a two-photo list where photo 1 has quantity 1 and is
decremented: it stays at quantity 1 (unchanged in the list) and photo 2
is untouched. -/
theorem handleQuantityChange_keeps_min_one_witness :
    (∀ p ∈ handleQuantityChange witnessPhotos 1 (-1), 1 ≤ p.quantity) ∧
    (∀ p ∈ witnessPhotos, p.id ≠ 1 → p ∈ handleQuantityChange witnessPhotos 1 (-1)) ∧
    (∀ p ∈ witnessPhotos, p.id = 1 → p.quantity = 1 → (-1 : ℤ) = -1 →
      p ∈ handleQuantityChange witnessPhotos 1 (-1)) :=
  handleQuantityChange_keeps_min_one witnessPhotos 1 (-1)
    (by
      intro p hp
      simp only [witnessPhotos, List.mem_cons, List.not_mem_nil, or_false] at hp
      rcases hp with h | h <;> subst h <;> norm_num)

end PhotoUploader
